import Mathlib

/-!
Verification of the `TicTacToe` game-state module (`src/tic_tac_toe.py`).

The board is a 3x3 grid of cells; each cell is `' '`, `'X'` or `'O'` in the
Python source, modelled here by the closed enumeration `Cell`.  The attribute
`current_player` only ever holds `'X'` or `'O'`, modelled by `Player`.
Python boards are lists of row lists indexed `board[row][col]`; we model a
board as a total function `Fin 3 → Fin 3 → Cell` and row mutation
`board[row][col] = v` as a nested `Function.update`.
`make_move` takes arbitrary Python integers, hence `Int` coordinates here.
-/

inductive Cell where
  | Empty : Cell
  | MarkX : Cell
  | MarkO : Cell
deriving DecidableEq, Repr, Fintype

inductive Player where
  | X : Player
  | O : Player
deriving DecidableEq, Repr, Fintype

/-- The board mark written by a player (`self.current_player` is the string
placed into the cell). -/
def Player.mark : Player → Cell
  | .X => .MarkX
  | .O => .MarkO

abbrev Board := Fin 3 → Fin 3 → Cell

/-- Row mutation `self.board[row][col] = v`: the row list `board[row]` is updated at
index `col`. -/
def updateBoard (b : Board) (r c : Fin 3) (v : Cell) : Board :=
  Function.update b r (Function.update (b r) c v)

/-- The Python object state: `self.board` and `self.current_player`. -/
structure TicTacToe where
  board : Board
  current_player : Player
deriving DecidableEq

/-- Constructor `__init__`: empty 3x3 board, `'X'` to move. -/
def TicTacToe.init : TicTacToe :=
  { board := fun _ _ => Cell.Empty, current_player := Player.X }

/-- The flip `'O' if self.current_player == 'X' else 'X'`. -/
def otherPlayer (p : Player) : Player :=
  if p = Player.X then Player.O else Player.X

/-- Operation `make_move(self, row, col)`: returns the `bool` result together with the
state of the object after the call. -/
def make_move (s : TicTacToe) (row col : Int) : Bool × TicTacToe :=
  if h : 0 ≤ row ∧ row < 3 ∧ 0 ≤ col ∧ col < 3 then
    let r : Fin 3 := ⟨row.toNat, by omega⟩
    let c : Fin 3 := ⟨col.toNat, by omega⟩
    if s.board r c ≠ Cell.Empty then
      (false, s)
    else
      (true, { board := updateBoard s.board r c s.current_player.mark,
               current_player := otherPlayer s.current_player })
  else
    (false, s)

/-- Query `check_winner(self)`: rows, then columns, then main diagonal, then
anti-diagonal; the chained comparison `a == b == c != ' '` means
`a = b ∧ b = c ∧ c ≠ ' '`, and the first hit returns the first cell of the
line. -/
def check_winner (b : Board) : Option Cell :=
  if b 0 0 = b 0 1 ∧ b 0 1 = b 0 2 ∧ b 0 2 ≠ Cell.Empty then some (b 0 0)
  else if b 1 0 = b 1 1 ∧ b 1 1 = b 1 2 ∧ b 1 2 ≠ Cell.Empty then some (b 1 0)
  else if b 2 0 = b 2 1 ∧ b 2 1 = b 2 2 ∧ b 2 2 ≠ Cell.Empty then some (b 2 0)
  else if b 0 0 = b 1 0 ∧ b 1 0 = b 2 0 ∧ b 2 0 ≠ Cell.Empty then some (b 0 0)
  else if b 0 1 = b 1 1 ∧ b 1 1 = b 2 1 ∧ b 2 1 ≠ Cell.Empty then some (b 0 1)
  else if b 0 2 = b 1 2 ∧ b 1 2 = b 2 2 ∧ b 2 2 ≠ Cell.Empty then some (b 0 2)
  else if b 0 0 = b 1 1 ∧ b 1 1 = b 2 2 ∧ b 2 2 ≠ Cell.Empty then some (b 0 0)
  else if b 0 2 = b 1 1 ∧ b 1 1 = b 2 0 ∧ b 2 0 ≠ Cell.Empty then some (b 0 2)
  else none

/-- Query `is_board_full(self)`: `False` as soon as some row contains `' '`. -/
def is_board_full (b : Board) : Bool :=
  (List.finRange 3).all fun i => (List.finRange 3).all fun j => b i j ≠ Cell.Empty

/-- Query `is_game_over(self)`. -/
def is_game_over (s : TicTacToe) : Bool :=
  (check_winner s.board).isSome || is_board_full s.board

/-- Accessor `get_board(self)` at the value level: `[row[:] for row in self.board]`
copies every row, so the returned snapshot is cell-for-cell the board.
(The aliasing content of the copy is modelled separately below.) -/
def get_board (s : TicTacToe) : Board :=
  s.board

/-- Operation `reset(self)`: the state of the object after the call. -/
def reset (_s : TicTacToe) : TicTacToe :=
  TicTacToe.init

/-- The eight lines in the scan order fixed by the spec: 3 rows, 3 columns,
main diagonal, anti-diagonal; each line is the ordered triple of its cell
coordinates. -/
def linesInOrder : List ((Fin 3 × Fin 3) × (Fin 3 × Fin 3) × (Fin 3 × Fin 3)) :=
  [((0, 0), (0, 1), (0, 2)), ((1, 0), (1, 1), (1, 2)), ((2, 0), (2, 1), (2, 2)),
   ((0, 0), (1, 0), (2, 0)), ((0, 1), (1, 1), (2, 1)), ((0, 2), (1, 2), (2, 2)),
   ((0, 0), (1, 1), (2, 2)), ((0, 2), (1, 1), (2, 0))]

/-- Modelled from the spec: "A line wins if all three of its cells are equal
and non-Empty"; the winning line yields its mark. -/
def lineWins (b : Board) : (Fin 3 × Fin 3) × (Fin 3 × Fin 3) × (Fin 3 × Fin 3) → Option Cell
  | ((i₁, j₁), (i₂, j₂), (i₃, j₃)) =>
    if b i₁ j₁ = b i₂ j₂ ∧ b i₂ j₂ = b i₃ j₃ ∧ b i₁ j₁ ≠ Cell.Empty then some (b i₁ j₁)
    else none

/-- Modelled from the spec: the mark of the first line, in the fixed scan
order, whose three cells are equal and non-Empty; the absent value when no
such line exists.  `check_winner` is proved to refine this. -/
def check_winner_spec (b : Board) : Option Cell :=
  linesInOrder.findSome? (lineWins b)

/-- Trace of the movers: the value of `current_player` at each successful
`make_move` of the sequence, in order. -/
def moverTrace (s : TicTacToe) : List (Int × Int) → List Player
  | [] => []
  | (r, c) :: ms =>
    let res := make_move s r c
    if res.1 then s.current_player :: moverTrace res.2 ms else moverTrace res.2 ms

/-- Run a sequence of `make_move` calls, keeping only the state. -/
def playMoves (s : TicTacToe) (ms : List (Int × Int)) : TicTacToe :=
  ms.foldl (fun t p => (make_move t p.1 p.2).2) s

/-- A reachable state in which X has completed the top row: the game is won
but cells remain empty. -/
def wonState : TicTacToe :=
  playMoves TicTacToe.init [(0, 0), (1, 0), (0, 1), (1, 1), (0, 2)]

/-- The mutating operations of the class: `make_move` and `reset`. -/
inductive Op where
  | move (row col : Int) : Op
  | rst : Op

/-- One mutating call. -/
def step (s : TicTacToe) : Op → TicTacToe
  | .move r c => (make_move s r c).2
  | .rst => reset s

/-- The state after a sequence of `make_move` and `reset` calls on a fresh
instance; its image is exactly the reachable states. -/
def run (ops : List Op) : TicTacToe :=
  ops.foldl step TicTacToe.init

/-- Number of cells of the board holding the given mark. -/
def countMark (b : Board) (m : Cell) : Nat :=
  ((Finset.univ : Finset (Fin 3 × Fin 3)).filter fun p => b p.1 p.2 = m).card

/-- The mark-count parity invariant. -/
def counts_ok (s : TicTacToe) : Prop :=
  countMark s.board Cell.MarkX =
    countMark s.board Cell.MarkO + (if s.current_player = Player.O then 1 else 0)

/-!
Aliasing model for `get_board`.  Python rows are heap objects; `self.board`
is a list of three row references, and `get_board` builds `row[:]` copies:
three freshly allocated rows with the same contents.  We model the heap as a
map from allocation ids to row contents together with an allocation counter;
ids below the counter are allocated, and fresh ids start at the counter.
-/

structure PyHeap where
  rowObj : Nat → Fin 3 → Cell
  next : Nat

structure PyGame where
  heap : PyHeap
  boardRows : Fin 3 → Nat
  current_player : Player

/-- A game object is well formed when its three row references are allocated. -/
def PyGame.wf (g : PyGame) : Prop :=
  ∀ i : Fin 3, g.boardRows i < g.heap.next

/-- The internal board read through the row references. -/
def readBoard (g : PyGame) : Board :=
  fun i j => g.heap.rowObj (g.boardRows i) j

/-- Accessor `get_board(self)` in the heap model: `[row[:] for row in self.board]`
allocates three fresh row objects copying the current row contents and
returns their references, leaving the internal references untouched. -/
def get_board_alloc (g : PyGame) : (Fin 3 → Nat) × PyGame :=
  ((fun i => g.heap.next + (i : Nat)),
   { g with heap :=
      { rowObj := fun n j =>
          if g.heap.next ≤ n then
            if h : n - g.heap.next < 3 then
              g.heap.rowObj (g.boardRows ⟨n - g.heap.next, h⟩) j
            else g.heap.rowObj n j
          else g.heap.rowObj n j,
        next := g.heap.next + 3 } })

/-- Mutation `rows[i][j] = v` on a caller-held row reference: mutates that row object
in the heap. -/
def writeCell (g : PyGame) (rid : Nat) (j : Fin 3) (v : Cell) : PyGame :=
  { g with heap :=
      { g.heap with rowObj := fun n =>
          if n = rid then Function.update (g.heap.rowObj n) j v
          else g.heap.rowObj n } }

/-- A concrete well-formed game object, used to instantiate the snapshot
theorem. -/
def gEx : PyGame :=
  { heap := { rowObj := fun _ _ => Cell.Empty, next := 3 },
    boardRows := fun i => (i : Nat),
    current_player := Player.X }

theorem updateBoard_apply (b : Board) (r c : Fin 3) (v : Cell) (i j : Fin 3) :
    updateBoard b r c v i j = if i = r ∧ j = c then v else b i j := by
  unfold updateBoard
  by_cases hi : i = r
  · subst hi
    rw [Function.update_same]
    by_cases hj : j = c
    · subst hj
      rw [Function.update_same, if_pos ⟨rfl, rfl⟩]
    · rw [Function.update_noteq hj, if_neg (fun h => hj h.2)]
  · rw [Function.update_noteq hi, if_neg (fun h => hi h.1)]

theorem make_move_oob (s : TicTacToe) (row col : Int)
    (h : ¬(0 ≤ row ∧ row < 3 ∧ 0 ≤ col ∧ col < 3)) :
    make_move s row col = (false, s) := by
  unfold make_move
  rw [dif_neg h]

theorem make_move_occ (s : TicTacToe) (row col : Int)
    (hb : 0 ≤ row ∧ row < 3 ∧ 0 ≤ col ∧ col < 3)
    (h : s.board ⟨row.toNat, by omega⟩ ⟨col.toNat, by omega⟩ ≠ Cell.Empty) :
    make_move s row col = (false, s) := by
  unfold make_move
  rw [dif_pos hb]
  simp only [if_pos h]

theorem make_move_valid (s : TicTacToe) (row col : Int)
    (hb : 0 ≤ row ∧ row < 3 ∧ 0 ≤ col ∧ col < 3)
    (he : s.board ⟨row.toNat, by omega⟩ ⟨col.toNat, by omega⟩ = Cell.Empty) :
    make_move s row col =
      (true, { board := updateBoard s.board ⟨row.toNat, by omega⟩ ⟨col.toNat, by omega⟩
                          s.current_player.mark,
               current_player := otherPlayer s.current_player }) := by
  unfold make_move
  rw [dif_pos hb]
  simp [he]

theorem make_move_fail_state (s : TicTacToe) (row col : Int)
    (h : (make_move s row col).1 = false) :
    (make_move s row col).2 = s := by
  by_cases hb : 0 ≤ row ∧ row < 3 ∧ 0 ≤ col ∧ col < 3
  · by_cases he : s.board ⟨row.toNat, by omega⟩ ⟨col.toNat, by omega⟩ = Cell.Empty
    · rw [make_move_valid s row col hb he] at h
      simp at h
    · rw [make_move_occ s row col hb he]
  · rw [make_move_oob s row col hb]

theorem make_move_state_cases (s : TicTacToe) (row col : Int) :
    (make_move s row col).2 = s ∨
    ∃ (ri ci : Fin 3), s.board ri ci = Cell.Empty ∧
      (make_move s row col).2 =
        { board := updateBoard s.board ri ci s.current_player.mark,
          current_player := otherPlayer s.current_player } := by
  by_cases hb : 0 ≤ row ∧ row < 3 ∧ 0 ≤ col ∧ col < 3
  · by_cases he : s.board ⟨row.toNat, by omega⟩ ⟨col.toNat, by omega⟩ = Cell.Empty
    · exact Or.inr ⟨_, _, he, by rw [make_move_valid s row col hb he]⟩
    · exact Or.inl (by rw [make_move_occ s row col hb he])
  · exact Or.inl (by rw [make_move_oob s row col hb])

theorem make_move_succ_player (s : TicTacToe) (row col : Int)
    (h : (make_move s row col).1 = true) :
    (make_move s row col).2.current_player = otherPlayer s.current_player := by
  by_cases hb : 0 ≤ row ∧ row < 3 ∧ 0 ≤ col ∧ col < 3
  · by_cases he : s.board ⟨row.toNat, by omega⟩ ⟨col.toNat, by omega⟩ = Cell.Empty
    · rw [make_move_valid s row col hb he]
    · rw [make_move_occ s row col hb he] at h
      simp at h
  · rw [make_move_oob s row col hb] at h
    simp at h

theorem otherPlayer_otherPlayer (p : Player) : otherPlayer (otherPlayer p) = p := by
  cases p <;> rfl

theorem line_cond_comm (x y z : Cell) :
    (x = y ∧ y = z ∧ z ≠ Cell.Empty) ↔ (x = y ∧ y = z ∧ x ≠ Cell.Empty) := by
  constructor <;> rintro ⟨rfl, rfl, h⟩ <;> exact ⟨rfl, rfl, h⟩

theorem lineWins_eval (b : Board) (i₁ j₁ i₂ j₂ i₃ j₃ : Fin 3) :
    lineWins b ((i₁, j₁), (i₂, j₂), (i₃, j₃)) =
      if b i₁ j₁ = b i₂ j₂ ∧ b i₂ j₂ = b i₃ j₃ ∧ b i₁ j₁ ≠ Cell.Empty
      then some (b i₁ j₁) else none := rfl

theorem check_winner_spec_eval (b : Board) :
    check_winner_spec b =
      (if b 0 0 = b 0 1 ∧ b 0 1 = b 0 2 ∧ b 0 0 ≠ Cell.Empty then some (b 0 0)
       else if b 1 0 = b 1 1 ∧ b 1 1 = b 1 2 ∧ b 1 0 ≠ Cell.Empty then some (b 1 0)
       else if b 2 0 = b 2 1 ∧ b 2 1 = b 2 2 ∧ b 2 0 ≠ Cell.Empty then some (b 2 0)
       else if b 0 0 = b 1 0 ∧ b 1 0 = b 2 0 ∧ b 0 0 ≠ Cell.Empty then some (b 0 0)
       else if b 0 1 = b 1 1 ∧ b 1 1 = b 2 1 ∧ b 0 1 ≠ Cell.Empty then some (b 0 1)
       else if b 0 2 = b 1 2 ∧ b 1 2 = b 2 2 ∧ b 0 2 ≠ Cell.Empty then some (b 0 2)
       else if b 0 0 = b 1 1 ∧ b 1 1 = b 2 2 ∧ b 0 0 ≠ Cell.Empty then some (b 0 0)
       else if b 0 2 = b 1 1 ∧ b 1 1 = b 2 0 ∧ b 0 2 ≠ Cell.Empty then some (b 0 2)
       else none) := by
  simp only [check_winner_spec, linesInOrder, List.findSome?_cons, lineWins_eval]
  by_cases h1 : b 0 0 = b 0 1 ∧ b 0 1 = b 0 2 ∧ b 0 0 ≠ Cell.Empty
  · simp only [if_pos h1]
  simp only [if_neg h1]
  by_cases h2 : b 1 0 = b 1 1 ∧ b 1 1 = b 1 2 ∧ b 1 0 ≠ Cell.Empty
  · simp only [if_pos h2]
  simp only [if_neg h2]
  by_cases h3 : b 2 0 = b 2 1 ∧ b 2 1 = b 2 2 ∧ b 2 0 ≠ Cell.Empty
  · simp only [if_pos h3]
  simp only [if_neg h3]
  by_cases h4 : b 0 0 = b 1 0 ∧ b 1 0 = b 2 0 ∧ b 0 0 ≠ Cell.Empty
  · simp only [if_pos h4]
  simp only [if_neg h4]
  by_cases h5 : b 0 1 = b 1 1 ∧ b 1 1 = b 2 1 ∧ b 0 1 ≠ Cell.Empty
  · simp only [if_pos h5]
  simp only [if_neg h5]
  by_cases h6 : b 0 2 = b 1 2 ∧ b 1 2 = b 2 2 ∧ b 0 2 ≠ Cell.Empty
  · simp only [if_pos h6]
  simp only [if_neg h6]
  by_cases h7 : b 0 0 = b 1 1 ∧ b 1 1 = b 2 2 ∧ b 0 0 ≠ Cell.Empty
  · simp only [if_pos h7]
  simp only [if_neg h7]
  by_cases h8 : b 0 2 = b 1 1 ∧ b 1 1 = b 2 0 ∧ b 0 2 ≠ Cell.Empty
  · simp only [if_pos h8]
  simp only [if_neg h8]
  rfl

/-- C3: on every board, also unreachable ones, `check_winner` returns exactly
what the spec's fixed scan prescribes: the mark of the first line (3 rows,
then 3 columns, then main diagonal, then anti-diagonal) whose three cells are
equal and non-`Empty`, and the absent value when no line wins; it never
returns the `Empty` value.  Totality and determinism hold because
`check_winner` is a total Lean function. -/
theorem check_winner_refines_scan_order (b : Board) :
    check_winner b = check_winner_spec b ∧ check_winner b ≠ some Cell.Empty := by
  constructor
  · rw [check_winner_spec_eval b]
    unfold check_winner
    by_cases h1 : b 0 0 = b 0 1 ∧ b 0 1 = b 0 2 ∧ b 0 2 ≠ Cell.Empty
    · simp only [if_pos h1, if_pos ((line_cond_comm (b 0 0) (b 0 1) (b 0 2)).mp h1)]
    simp only [if_neg h1,
      if_neg (fun hx => h1 ((line_cond_comm (b 0 0) (b 0 1) (b 0 2)).mpr hx))]
    by_cases h2 : b 1 0 = b 1 1 ∧ b 1 1 = b 1 2 ∧ b 1 2 ≠ Cell.Empty
    · simp only [if_pos h2, if_pos ((line_cond_comm (b 1 0) (b 1 1) (b 1 2)).mp h2)]
    simp only [if_neg h2,
      if_neg (fun hx => h2 ((line_cond_comm (b 1 0) (b 1 1) (b 1 2)).mpr hx))]
    by_cases h3 : b 2 0 = b 2 1 ∧ b 2 1 = b 2 2 ∧ b 2 2 ≠ Cell.Empty
    · simp only [if_pos h3, if_pos ((line_cond_comm (b 2 0) (b 2 1) (b 2 2)).mp h3)]
    simp only [if_neg h3,
      if_neg (fun hx => h3 ((line_cond_comm (b 2 0) (b 2 1) (b 2 2)).mpr hx))]
    by_cases h4 : b 0 0 = b 1 0 ∧ b 1 0 = b 2 0 ∧ b 2 0 ≠ Cell.Empty
    · simp only [if_pos h4, if_pos ((line_cond_comm (b 0 0) (b 1 0) (b 2 0)).mp h4)]
    simp only [if_neg h4,
      if_neg (fun hx => h4 ((line_cond_comm (b 0 0) (b 1 0) (b 2 0)).mpr hx))]
    by_cases h5 : b 0 1 = b 1 1 ∧ b 1 1 = b 2 1 ∧ b 2 1 ≠ Cell.Empty
    · simp only [if_pos h5, if_pos ((line_cond_comm (b 0 1) (b 1 1) (b 2 1)).mp h5)]
    simp only [if_neg h5,
      if_neg (fun hx => h5 ((line_cond_comm (b 0 1) (b 1 1) (b 2 1)).mpr hx))]
    by_cases h6 : b 0 2 = b 1 2 ∧ b 1 2 = b 2 2 ∧ b 2 2 ≠ Cell.Empty
    · simp only [if_pos h6, if_pos ((line_cond_comm (b 0 2) (b 1 2) (b 2 2)).mp h6)]
    simp only [if_neg h6,
      if_neg (fun hx => h6 ((line_cond_comm (b 0 2) (b 1 2) (b 2 2)).mpr hx))]
    by_cases h7 : b 0 0 = b 1 1 ∧ b 1 1 = b 2 2 ∧ b 2 2 ≠ Cell.Empty
    · simp only [if_pos h7, if_pos ((line_cond_comm (b 0 0) (b 1 1) (b 2 2)).mp h7)]
    simp only [if_neg h7,
      if_neg (fun hx => h7 ((line_cond_comm (b 0 0) (b 1 1) (b 2 2)).mpr hx))]
    by_cases h8 : b 0 2 = b 1 1 ∧ b 1 1 = b 2 0 ∧ b 2 0 ≠ Cell.Empty
    · simp only [if_pos h8, if_pos ((line_cond_comm (b 0 2) (b 1 1) (b 2 0)).mp h8)]
    simp only [if_neg h8,
      if_neg (fun hx => h8 ((line_cond_comm (b 0 2) (b 1 1) (b 2 0)).mpr hx))]
  · unfold check_winner
    split_ifs with h1 h2 h3 h4 h5 h6 h7 h8 <;> simp_all

/-- C4: `is_game_over` is `True` exactly when `check_winner` returns a mark or
the board is full, and `is_board_full` is `True` exactly when no cell is
`Empty`; both are functions of the state alone and return no new state, so
they mutate nothing. -/
theorem is_game_over_correct (s : TicTacToe) :
    (is_game_over s = true ↔
      ((∃ m, check_winner s.board = some m) ∨ is_board_full s.board = true)) ∧
    (is_board_full s.board = true ↔ ∀ i j : Fin 3, s.board i j ≠ Cell.Empty) := by
  constructor
  · simp [is_game_over, Option.isSome_iff_exists]
  · simp [is_board_full, List.all_eq_true, List.mem_finRange]

/-- C1: for every state and every integer pair, `make_move` returns `False`
and leaves the whole state (pair of board and current player) unchanged
whenever the coordinates are out of `[0,2]` or the target cell is occupied;
no exception path exists (`make_move` is a total function) and the rejected
call is an atomic no-op. -/
theorem make_move_rejects_invalid (s : TicTacToe) (row col : Int)
    (h : ∀ (hb : 0 ≤ row ∧ row < 3 ∧ 0 ≤ col ∧ col < 3),
      s.board ⟨row.toNat, by omega⟩ ⟨col.toNat, by omega⟩ ≠ Cell.Empty) :
    make_move s row col = (false, s) := by
  by_cases hb : 0 ≤ row ∧ row < 3 ∧ 0 ≤ col ∧ col < 3
  · exact make_move_occ s row col hb (h hb)
  · exact make_move_oob s row col hb

theorem make_move_rejects_invalid_witness :
    make_move (make_move TicTacToe.init 0 0).2 0 0 =
      (false, (make_move TicTacToe.init 0 0).2) :=
  make_move_rejects_invalid (make_move TicTacToe.init 0 0).2 0 0
    (fun _ => by
      show (make_move TicTacToe.init 0 0).2.board ⟨0, by decide⟩ ⟨0, by decide⟩ ≠
        Cell.Empty
      decide)

/-- C2: on in-bounds coordinates whose cell is `Empty`, `make_move` returns
`True`, writes the current player's mark into that cell, flips
`current_player`, and changes no other cell. -/
theorem make_move_success (s : TicTacToe) (row col : Int)
    (hb : 0 ≤ row ∧ row < 3 ∧ 0 ≤ col ∧ col < 3)
    (he : s.board ⟨row.toNat, by omega⟩ ⟨col.toNat, by omega⟩ = Cell.Empty) :
    (make_move s row col).1 = true ∧
    (make_move s row col).2.board ⟨row.toNat, by omega⟩ ⟨col.toNat, by omega⟩ =
      s.current_player.mark ∧
    (make_move s row col).2.current_player = otherPlayer s.current_player ∧
    ∀ i j : Fin 3,
      ¬(i = (⟨row.toNat, by omega⟩ : Fin 3) ∧ j = (⟨col.toNat, by omega⟩ : Fin 3)) →
      (make_move s row col).2.board i j = s.board i j := by
  rw [make_move_valid s row col hb he]
  refine ⟨rfl, ?_, rfl, ?_⟩
  · show updateBoard s.board _ _ s.current_player.mark _ _ = s.current_player.mark
    rw [updateBoard_apply, if_pos ⟨rfl, rfl⟩]
  · intro i j hij
    show updateBoard s.board _ _ s.current_player.mark i j = s.board i j
    rw [updateBoard_apply, if_neg hij]

theorem make_move_success_witness :
    ((0 : Int) ≤ 0 ∧ (0 : Int) < 3 ∧ (0 : Int) ≤ 0 ∧ (0 : Int) < 3) ∧
    TicTacToe.init.board ⟨(0 : Int).toNat, by omega⟩ ⟨(0 : Int).toNat, by omega⟩ =
      Cell.Empty ∧
    (make_move TicTacToe.init 0 0).1 = true :=
  ⟨by decide, by decide,
   (make_move_success TicTacToe.init 0 0 (by decide) (by decide)).1⟩

/-- C6: a fresh instance has all nine cells `Empty` and `current_player = X`,
and `reset` maps every state (in particular every reachable one) to exactly
that initial state; `reset` is total, hence always succeeds. -/
theorem init_empty_and_reset_restores :
    (∀ i j : Fin 3, TicTacToe.init.board i j = Cell.Empty) ∧
    TicTacToe.init.current_player = Player.X ∧
    ∀ s : TicTacToe, reset s = TicTacToe.init :=
  ⟨fun _ _ => rfl, rfl, fun _ => rfl⟩

/-- C8: any cell already holding a mark is unchanged by any `make_move` call,
successful or not; combined with `init_empty_and_reset_restores`, only `reset`
(or fresh construction) ever returns a non-`Empty` cell to `Empty`. -/
theorem make_move_preserves_marks (s : TicTacToe) (row col : Int) (i j : Fin 3)
    (h : s.board i j ≠ Cell.Empty) :
    (make_move s row col).2.board i j = s.board i j := by
  rcases make_move_state_cases s row col with heq | ⟨ri, ci, he, heq⟩
  · rw [heq]
  · rw [heq]
    show updateBoard s.board ri ci s.current_player.mark i j = s.board i j
    rw [updateBoard_apply, if_neg (fun hij => h (by rw [hij.1, hij.2]; exact he))]

theorem make_move_preserves_marks_witness :
    (make_move TicTacToe.init 0 0).2.board 0 0 ≠ Cell.Empty ∧
    (make_move (make_move TicTacToe.init 0 0).2 1 1).2.board 0 0 =
      (make_move TicTacToe.init 0 0).2.board 0 0 :=
  ⟨by decide,
   make_move_preserves_marks (make_move TicTacToe.init 0 0).2 1 1 0 0 (by decide)⟩

theorem moverTrace_cons_succ (s : TicTacToe) (r c : Int) (ms : List (Int × Int))
    (h : (make_move s r c).1 = true) :
    moverTrace s ((r, c) :: ms) =
      s.current_player :: moverTrace (make_move s r c).2 ms := by
  simp [moverTrace, h]

theorem moverTrace_cons_fail (s : TicTacToe) (r c : Int) (ms : List (Int × Int))
    (h : (make_move s r c).1 = false) :
    moverTrace s ((r, c) :: ms) = moverTrace s ms := by
  have h2 := make_move_fail_state s r c h
  simp [moverTrace, h, h2]

theorem moverTrace_get?_aux (ms : List (Int × Int)) :
    ∀ (s : TicTacToe) (k : Nat) (p : Player),
      (moverTrace s ms).get? k = some p →
      p = if k % 2 = 0 then s.current_player else otherPlayer s.current_player := by
  induction ms with
  | nil =>
    intro s k p hp
    simp [moverTrace] at hp
  | cons m ms ih =>
    intro s k p hp
    obtain ⟨r, c⟩ := m
    by_cases h1 : (make_move s r c).1 = true
    · have hs := make_move_succ_player s r c h1
      rw [moverTrace_cons_succ s r c ms h1] at hp
      cases k with
      | zero =>
        simp only [List.get?_cons_zero, Option.some.injEq] at hp
        simp [hp]
      | succ k =>
        rw [List.get?_cons_succ] at hp
        rw [ih (make_move s r c).2 k p hp, hs, otherPlayer_otherPlayer]
        by_cases hk2 : k % 2 = 0
        · have hk3 : ¬((k + 1) % 2 = 0) := by omega
          rw [if_pos hk2, if_neg hk3]
        · have hk3 : (k + 1) % 2 = 0 := by omega
          rw [if_neg hk2, if_pos hk3]
    · have h1f : (make_move s r c).1 = false := by
        simpa using h1
      rw [moverTrace_cons_fail s r c ms h1f] at hp
      exact ih s k p hp

/-- C7: along any sequence of `make_move` calls from the initial state, the
players of the successful moves strictly alternate starting with X (the move
at 0-based position `k` of the success trace is X exactly when `k` is even),
and a failed `make_move` leaves the whole state, `current_player` included,
unchanged (queries do not touch the state at all: they are functions of it
returning no new state). -/
theorem turn_alternation (ms : List (Int × Int)) (k : Nat)
    (hk : k < (moverTrace TicTacToe.init ms).length) :
    (moverTrace TicTacToe.init ms).get ⟨k, hk⟩ =
      (if k % 2 = 0 then Player.X else Player.O) ∧
    ∀ (s : TicTacToe) (row col : Int),
      (make_move s row col).1 = false → (make_move s row col).2 = s := by
  refine ⟨?_, make_move_fail_state⟩
  rw [moverTrace_get?_aux ms TicTacToe.init k
    ((moverTrace TicTacToe.init ms).get ⟨k, hk⟩) (List.get?_eq_get hk)]
  rfl

theorem turn_alternation_witness :
    1 < (moverTrace TicTacToe.init [(0, 0), (0, 0), (1, 1)]).length ∧
    ((moverTrace TicTacToe.init [(0, 0), (0, 0), (1, 1)]).get ⟨1, by decide⟩ =
       (if 1 % 2 = 0 then Player.X else Player.O) ∧
     ∀ (s : TicTacToe) (row col : Int),
       (make_move s row col).1 = false → (make_move s row col).2 = s) :=
  ⟨by decide, turn_alternation [(0, 0), (0, 0), (1, 1)] 1 (by decide)⟩

theorem countMark_update_self (b : Board) (r c : Fin 3) (v : Cell)
    (hbv : b r c ≠ v) :
    countMark (updateBoard b r c v) v = countMark b v + 1 := by
  unfold countMark
  have hset : ((Finset.univ : Finset (Fin 3 × Fin 3)).filter
        fun p => updateBoard b r c v p.1 p.2 = v) =
      insert (r, c) ((Finset.univ : Finset (Fin 3 × Fin 3)).filter
        fun p => b p.1 p.2 = v) := by
    ext p
    simp only [Finset.mem_filter, Finset.mem_univ, true_and, Finset.mem_insert,
      updateBoard_apply]
    by_cases h : p.1 = r ∧ p.2 = c
    · rw [if_pos h]
      constructor
      · intro _
        exact Or.inl (Prod.ext h.1 h.2)
      · intro _
        rfl
    · rw [if_neg h]
      constructor
      · intro hb2
        exact Or.inr hb2
      · intro hmem
        rcases hmem with hpe | hb2
        · exact absurd ⟨congrArg Prod.fst hpe, congrArg Prod.snd hpe⟩ h
        · exact hb2
  rw [hset, Finset.card_insert_of_not_mem]
  simp only [Finset.mem_filter, Finset.mem_univ, true_and]
  exact hbv

theorem countMark_update_of_ne (b : Board) (r c : Fin 3) (v m : Cell)
    (hbm : b r c ≠ m) (hvm : v ≠ m) :
    countMark (updateBoard b r c v) m = countMark b m := by
  unfold countMark
  congr 1
  ext p
  simp only [Finset.mem_filter, Finset.mem_univ, true_and, updateBoard_apply]
  by_cases h : p.1 = r ∧ p.2 = c
  · rw [if_pos h]
    constructor
    · intro hv
      exact absurd hv hvm
    · intro hb2
      rw [h.1, h.2] at hb2
      exact absurd hb2 hbm
  · rw [if_neg h]

theorem counts_ok_init : counts_ok TicTacToe.init := by
  unfold counts_ok
  decide

theorem counts_ok_step (s : TicTacToe) (op : Op) (h : counts_ok s) :
    counts_ok (step s op) := by
  cases op with
  | rst => exact counts_ok_init
  | move r c =>
    show counts_ok (make_move s r c).2
    rcases make_move_state_cases s r c with heq | ⟨ri, ci, he, heq⟩
    · rw [heq]
      exact h
    · rw [heq]
      unfold counts_ok at h ⊢
      dsimp only
      cases hp : s.current_player with
      | X =>
        rw [hp] at h
        simp only [hp, Player.mark]
        rw [countMark_update_self s.board ri ci Cell.MarkX (by simp [he]),
          countMark_update_of_ne s.board ri ci Cell.MarkX Cell.MarkO
            (by simp [he]) (by simp)]
        simp only [otherPlayer]
        simp at h ⊢
        omega
      | O =>
        rw [hp] at h
        simp only [hp, Player.mark]
        rw [countMark_update_self s.board ri ci Cell.MarkO (by simp [he]),
          countMark_update_of_ne s.board ri ci Cell.MarkO Cell.MarkX
            (by simp [he]) (by simp)]
        simp only [otherPlayer]
        simp at h ⊢
        omega

theorem counts_ok_run (ops : List Op) : counts_ok (run ops) := by
  unfold run
  have hgen : ∀ (l : List Op) (s : TicTacToe), counts_ok s →
      counts_ok (l.foldl step s) := by
    intro l
    induction l with
    | nil => intro s hs; exact hs
    | cons op l ih =>
      intro s hs
      exact ih (step s op) (counts_ok_step s op hs)
  exact hgen ops TicTacToe.init counts_ok_init

/-- C10: in every state reachable from a fresh instance by any sequence of
`make_move` and `reset` calls, the number of X cells equals the number of O
cells when X is to move, and exceeds it by exactly one when O is to move. -/
theorem mark_count_parity (ops : List Op) :
    ((run ops).current_player = Player.X →
      countMark (run ops).board Cell.MarkX = countMark (run ops).board Cell.MarkO) ∧
    ((run ops).current_player = Player.O →
      countMark (run ops).board Cell.MarkX =
        countMark (run ops).board Cell.MarkO + 1) := by
  have h := counts_ok_run ops
  unfold counts_ok at h
  constructor
  · intro hp
    rw [hp] at h
    simpa using h
  · intro hp
    rw [hp] at h
    simpa using h

theorem mark_count_parity_witness :
    (run [Op.move 0 0]).current_player = Player.O ∧
    countMark (run [Op.move 0 0]).board Cell.MarkX =
      countMark (run [Op.move 0 0]).board Cell.MarkO + 1 :=
  ⟨by decide, (mark_count_parity [Op.move 0 0]).2 (by decide)⟩

/-- C5: `get_board` returns a deep, independent snapshot.  In the heap model:
the returned row objects equal the internal board cell-for-cell, taking the
snapshot changes no internal cell, mutating any cell of any returned row
leaves the internal board (as read through the internal references, i.e. by a
subsequent `get_board`) unchanged, and the mutated object is still well
formed, so every later snapshot again shows the original cells. -/
theorem get_board_snapshot (g : PyGame) (hwf : PyGame.wf g) :
    (∀ i j : Fin 3,
      (get_board_alloc g).2.heap.rowObj ((get_board_alloc g).1 i) j =
        readBoard g i j) ∧
    (∀ i j : Fin 3, readBoard (get_board_alloc g).2 i j = readBoard g i j) ∧
    (∀ (i j : Fin 3) (v : Cell) (i₂ j₂ : Fin 3),
      readBoard (writeCell (get_board_alloc g).2 ((get_board_alloc g).1 i) j v) i₂ j₂ =
        readBoard g i₂ j₂) ∧
    (∀ (i : Fin 3) (j : Fin 3) (v : Cell),
      PyGame.wf (writeCell (get_board_alloc g).2 ((get_board_alloc g).1 i) j v)) := by
  unfold PyGame.wf at hwf
  unfold get_board_alloc writeCell readBoard PyGame.wf
  dsimp only
  refine ⟨?_, ?_, ?_, ?_⟩
  · intro i j
    have hi := i.isLt
    rw [if_pos (Nat.le_add_right _ _), dif_pos (by omega : g.heap.next + (i : Nat) - g.heap.next < 3)]
    congr 2
    apply Fin.ext
    show g.heap.next + (i : Nat) - g.heap.next = (i : Nat)
    omega
  · intro i j
    have hb := hwf i
    rw [if_neg (by omega)]
  · intro i j v i₂ j₂
    have hb := hwf i₂
    rw [if_neg (by omega), if_neg (by omega)]
  · intro i j v i₂
    have hb := hwf i₂
    omega

theorem get_board_snapshot_witness :
    PyGame.wf gEx ∧
    ∀ i j : Fin 3,
      (get_board_alloc gEx).2.heap.rowObj ((get_board_alloc gEx).1 i) j =
        readBoard gEx i j :=
  ⟨by unfold PyGame.wf; decide,
   (get_board_snapshot gEx (by unfold PyGame.wf; decide)).1⟩

/-- C9: `make_move` has no terminal-state guard: in the reachable state
`wonState` (X has completed the top row, so `check_winner` returns a mark)
the cell (2,2) is still empty, and `make_move 2 2` succeeds, writes the mark
of O into the cell and flips `current_player`, even though the game is over. -/
theorem no_terminal_state_guard :
    check_winner wonState.board = some Cell.MarkX ∧
    wonState.board 2 2 = Cell.Empty ∧
    wonState.current_player = Player.O ∧
    (make_move wonState 2 2).1 = true ∧
    (make_move wonState 2 2).2.board 2 2 = Cell.MarkO ∧
    (make_move wonState 2 2).2.current_player = Player.X := by
  decide
